import Mathlib

set_option maxRecDepth 16000

/- Shallow embedding of src/finance.py (poly-finance), the refresh/cache
subsystem: the fan-out fetcher (fetch_batch and the offset reassembly in
get_all_finance_events), the filter/transform pipeline, the cache update
step (update_finance_events) and the paginated read endpoint
(get_paginated_finance_markets).

Modelling conventions:
* Python floats are modelled as rationals (ℚ); float rounding plays no role
  in any property considered here, and the inf/nan/underscore spellings of
  Python float literals are outside the model.
* JSON/dict field access `d.get(k, default)` is modelled by Option fields
  plus `Option.getD`.
* Library calls are parameters: `json.loads` is a parameter
  `loads : String → Option Json` (none = raised JSONDecodeError) and
  `float` applied to a string is the concrete `pyFloat` below (none =
  raised ValueError).  Raising is modelled with `Except Unit`.
* One HTTP response is `Except Unit (List RawEvent)`: `.error` covers an
  exception from `requests.get` / `raise_for_status` / `.json()`, and a
  null JSON body (which the source maps to `[]`) is modelled as `.ok []`.
-/

/-- JSON values, the codomain of the modelled `json.loads`. -/
inductive Json where
  | null
  | jbool (b : Bool)
  | num (q : ℚ)
  | jstr (s : String)
  | arr (elems : List Json)
  | obj (fields : List (String × Json))

/-- A numeric-ish field of an upstream record, as `event.get(k, 0)` sees it:
absent (so the default 0 is used), a number (Python int/float/bool), a
string, or some other value (None, list, dict, ...) that fails the
`isinstance(v, (int, float, str))` test in the source. -/
inductive NumField where
  | absent
  | num (q : ℚ)
  | str (s : String)
  | other

/-- The raw `outcomePrices` field of a market: a string, already a list, or
some other value.  An absent field is modelled as `plist []` because the
source uses `market.get('outcomePrices', [])` whose default is a list. -/
inductive OPRaw where
  | pstr (s : String)
  | plist (elems : List Json)
  | pother

/-- A tag dict; the source touches only `id`, `label` and `slug`. -/
structure RawTag where
  id : Option String
  label : Option String
  slug : Option String

/-- A raw market record, restricted to the fields the source reads. -/
structure RawMarket where
  groupItemTitle : Option String
  image : Option String
  icon : Option String
  outcomePrices : OPRaw
  outcomes : Option Json
  closed : Option Bool
  active : Option Bool
  liquidity : NumField
  volume : NumField

/-- A raw event record, restricted to the fields the source reads. -/
structure RawEvent where
  id : Option String
  title : Option String
  slug : Option String
  image : Option String
  icon : Option String
  description : Option String
  endDate : Option String
  category : Option String
  active : Option Bool
  closed : Option Bool
  volume : NumField
  volume24hr : NumField
  liquidity : NumField
  tags : List RawTag
  markets : List RawMarket

/-- The formatted market dict built at lines 154-164 of the source. -/
structure ShapedMarket where
  groupItemTitle : String
  image : String
  outcomePrices : Json
  outcomes : Json
  is_live : Bool
  closed : Bool
  active : Bool
  liquidity : ℚ
  volume : ℚ

/-- The formatted event dict built at lines 171-189 of the source. -/
structure ShapedEvent where
  rank : Nat
  id : Option String
  title : Option String
  slug : Option String
  link : String
  image : String
  tags : List RawTag
  tag_labels : List (Option String)
  volume : ℚ
  volume_24hr : ℚ
  liquidity : ℚ
  description : String
  end_date : Option String
  market_count : Nat
  category : Option String
  markets : List ShapedMarket
  is_live : Bool

/-- Python `a or b` for a possibly-missing string `a` (None and the empty
string are falsy); used for the image fallback chains. -/
def orElseStr (a : Option String) (b : String) : String :=
  match a with
  | some s => if s = "" then b else s
  | none => b

/-- Python `str(x)` for a possibly-None string, as used by the f-string
that builds the permalink (None prints as the string None). -/
def pyStrOfOpt : Option String → String
  | some s => s
  | none => "None"

/-- ASCII digit test used by the float-literal model. -/
def isDigitChar (c : Char) : Bool :=
  48 ≤ c.toNat && c.toNat ≤ 57

/-- ASCII whitespace test (space, tab, newline family). -/
def isSpaceChar (c : Char) : Bool :=
  c.toNat = 32 || (9 ≤ c.toNat && c.toNat ≤ 13)

/-- Drop leading whitespace characters. -/
def dropSpaces : List Char → List Char
  | [] => []
  | c :: t => if isSpaceChar c then dropSpaces t else c :: t

/-- Whitespace stripping, as Python `float` applies to its argument. -/
def pyTrim (s : String) : List Char :=
  dropSpaces (dropSpaces s.data.reverse).reverse

/-- ASCII lower-casing of one character (the keyword set and the concrete
labels considered here are ASCII; full-Unicode `str.lower` is out of
scope). -/
def lowerChar (c : Char) : Char :=
  if 65 ≤ c.toNat && c.toNat ≤ 90 then Char.ofNat (c.toNat + 32) else c

/-- Model of Python `str.lower()`. -/
def pyLower (s : String) : String :=
  ⟨s.data.map lowerChar⟩

/-- Value of a digit string, most significant digit first. -/
def digitsToNat (cs : List Char) : Nat :=
  cs.foldl (fun a c => a * 10 + (c.toNat - 48)) 0

/-- The shape of an accepted Python float literal: sign, integer part,
fraction digits (value and count) and exponent. -/
structure DecLit where
  sign : Bool
  intPart : Nat
  fracPart : Nat
  fracLen : Nat
  exp : ℤ
  deriving DecidableEq

/-- Exponent part of a Python float literal, after the e/E marker. -/
def pyExpLit (sign : Bool) (ipv fpv fplen : Nat) (r : List Char) : Option DecLit :=
  let sr : ℤ × List Char := match r with
    | '+' :: t => (1, t)
    | '-' :: t => (-1, t)
    | _ => (1, r)
  let dr := sr.2.span isDigitChar
  if dr.1.isEmpty then none
  else if dr.2.isEmpty then some ⟨sign, ipv, fpv, fplen, sr.1 * (digitsToNat dr.1 : ℤ)⟩
  else none

/-- Syntax of a Python float literal: optional surrounding whitespace,
optional sign, decimal digits with optional fraction and exponent.
`none` models a raised ValueError.  (The inf/nan words and digit-group
underscores accepted by CPython are outside this model; no claim depends
on them.) -/
def pyFloatLit (s : String) : Option DecLit :=
  let cs := pyTrim s
  let sc : Bool × List Char := match cs with
    | '+' :: r => (false, r)
    | '-' :: r => (true, r)
    | _ => (false, cs)
  let ip := sc.2.span isDigitChar
  let fp : List Char × List Char := match ip.2 with
    | '.' :: r => r.span isDigitChar
    | _ => ([], ip.2)
  if ip.1.isEmpty && fp.1.isEmpty then none
  else
    match fp.2 with
    | [] => some ⟨sc.1, digitsToNat ip.1, digitsToNat fp.1, fp.1.length, 0⟩
    | 'e' :: r => pyExpLit sc.1 (digitsToNat ip.1) (digitsToNat fp.1) fp.1.length r
    | 'E' :: r => pyExpLit sc.1 (digitsToNat ip.1) (digitsToNat fp.1) fp.1.length r
    | _ => none

/-- Rational value of an accepted float literal. -/
def litVal (d : DecLit) : ℚ :=
  (if d.sign then (-1 : ℚ) else 1) *
    ((d.intPart : ℚ) + (d.fracPart : ℚ) / (10 : ℚ) ^ d.fracLen) *
    (10 : ℚ) ^ d.exp

/-- Model of Python `float` applied to a string. -/
def pyFloat (s : String) : Option ℚ :=
  (pyFloatLit s).map litVal

/-- Prefix test on character lists (helper for the substring test). -/
def charsPrefixOf : List Char → List Char → Bool
  | [], _ => true
  | _ :: _, [] => false
  | a :: as, b :: bs => a = b && charsPrefixOf as bs

/-- Substring test on character lists: Python `needle in haystack`. -/
def charsContains (needle : List Char) : List Char → Bool
  | [] => needle.isEmpty
  | c :: t => charsPrefixOf needle (c :: t) || charsContains needle t

/-- The finance_keywords list, lines 88-97 of the source. -/
def finance_keywords : List String :=
  ["finance", "financial", "stock", "stocks", "market",
   "trading", "investment", "investor", "wall street",
   "banking", "bank", "credit", "loan", "mortgage",
   "bond", "securities", "etf", "mutual fund", "hedge fund",
   "forex", "currency", "exchange", "commodity", "gold",
   "silver", "oil", "futures", "options", "derivatives",
   "portfolio", "dividend", "yield", "interest rate",
   "fed", "federal reserve", "treasury", "debt", "inflation",
   "sp500", "s&p", "dow", "nasdaq", "nyse", "ipo",
   "merger", "acquisition", "earnings", "revenue", "profit"]

/-- The tag-keyword filter, lines 100-110 of the source: an event survives
iff some lower-cased tag label contains some keyword as a substring. -/
def isFinance (event : RawEvent) : Bool :=
  (event.tags.map (fun t => pyLower (t.label.getD ""))).any
    (fun lab => finance_keywords.any (fun kw => charsContains kw.data lab.data))

/-- Numeric coercion of lines 118-120 and 130-131 of the source:
`float(d.get(k, 0)) if isinstance(d.get(k), (int, float, str)) else 0`.
An absent field falls back to 0 (note the isinstance test is run on
`d.get(k)` = None, so the else-branch 0 applies), a number is returned,
a non-(int/float/str) value yields 0, and a string goes through `float`,
which RAISES (here `.error ()`) when the string is not a float literal —
there is no try/except around this coercion in the source. -/
def coerceNum (pf : String → Option ℚ) : NumField → Except Unit ℚ
  | .absent => .ok 0
  | .num q => .ok q
  | .str s =>
    match pf s with
    | some q => .ok q
    | none => .error ()
  | .other => .ok 0

/-- Outcome-price parsing, lines 138-147 of the source: a string field is
decoded with `json.loads` (JSONDecodeError ⇒ the initial `[]` is kept), a
list field is taken as-is, anything else leaves the initial `[]`. -/
def parseOutcomePrices (loads : String → Option Json) : OPRaw → Json
  | .pstr s =>
    match loads s with
    | some j => j
    | none => .arr []
  | .plist l => .arr l
  | .pother => .arr []

/-- One iteration of the inner market loop, lines 128-165 of the source:
coerce liquidity then volume (either can raise), drop the market when both
are zero, otherwise build the formatted market dict. -/
def shapeMarket (loads : String → Option Json) (pf : String → Option ℚ)
    (event : RawEvent) (market : RawMarket) : Except Unit (Option ShapedMarket) :=
  match coerceNum pf market.liquidity with
  | .error u => .error u
  | .ok market_liquidity =>
    match coerceNum pf market.volume with
    | .error u => .error u
    | .ok market_volume =>
      if market_volume = 0 ∧ market_liquidity = 0 then
        .ok none
      else
        .ok (some
          { groupItemTitle := market.groupItemTitle.getD ""
            image := orElseStr market.image (orElseStr market.icon
              (orElseStr event.image (orElseStr event.icon
                "https://via.placeholder.com/40")))
            outcomePrices := parseOutcomePrices loads market.outcomePrices
            outcomes := market.outcomes.getD (Json.arr [])
            is_live := (market.active.getD true) && !(market.closed.getD false)
            closed := market.closed.getD false
            active := market.active.getD true
            liquidity := market_liquidity
            volume := market_volume })

/-- The whole market loop: surviving formatted markets in input order; an
exception from any market aborts the event (and, upstream, the refresh). -/
def shapeMarketsList (loads : String → Option Json) (pf : String → Option ℚ)
    (event : RawEvent) : List RawMarket → Except Unit (List ShapedMarket)
  | [] => .ok []
  | m :: rest =>
    match shapeMarket loads pf event m with
    | .error u => .error u
    | .ok o =>
      match shapeMarketsList loads pf event rest with
      | .error u => .error u
      | .ok r =>
        match o with
        | none => .ok r
        | some sm => .ok (sm :: r)

/-- The per-event body of the formatting loop, lines 114-189 of the source,
up to the rank: coerce the three event numerics (any can raise), apply the
zero-activity gate, shape the markets, apply the empty-markets gate, and
build the event dict as a function of the rank that the outer loop will
assign (`len(formatted_events) + 1`). -/
def shapeEventCore (loads : String → Option Json) (pf : String → Option ℚ)
    (event : RawEvent) : Except Unit (Option (Nat → ShapedEvent)) :=
  match coerceNum pf event.volume with
  | .error u => .error u
  | .ok volume =>
    match coerceNum pf event.volume24hr with
    | .error u => .error u
    | .ok volume_24hr =>
      match coerceNum pf event.liquidity with
      | .error u => .error u
      | .ok liquidity =>
        if volume = 0 ∧ liquidity = 0 then
          .ok none
        else
          match shapeMarketsList loads pf event event.markets with
          | .error u => .error u
          | .ok formatted_markets =>
            if formatted_markets.length = 0 then
              .ok none
            else
              .ok (some (fun rank =>
                { rank := rank
                  id := event.id
                  title := event.title
                  slug := event.slug
                  link := "https://polymarket.com/event/" ++ pyStrOfOpt event.slug
                  image := orElseStr event.image (orElseStr event.icon
                    "https://via.placeholder.com/150")
                  tags := event.tags.map (fun t =>
                    { id := t.id, label := t.label, slug := t.slug })
                  tag_labels := event.tags.map (fun t => t.label)
                  volume := volume
                  volume_24hr := volume_24hr
                  liquidity := liquidity
                  description := event.description.getD ""
                  end_date := event.endDate
                  market_count := formatted_markets.length
                  category := event.category
                  markets := formatted_markets
                  is_live := (event.active.getD true) && !(event.closed.getD false) }))

/-- The formatting loop of lines 113-189 with its accumulator
`formatted_events`; each surviving event is appended with
rank = current length + 1. -/
def formatGo (loads : String → Option Json) (pf : String → Option ℚ)
    (acc : List ShapedEvent) : List RawEvent → Except Unit (List ShapedEvent)
  | [] => .ok acc
  | e :: rest =>
    match shapeEventCore loads pf e with
    | .error u => .error u
    | .ok none => formatGo loads pf acc rest
    | .ok (some f) => formatGo loads pf (acc ++ [f (acc.length + 1)]) rest

/-- The surviving events as rank-awaiting records, in input order: the
rank-free content of the formatting loop, used to state that re-ranking
only renumbers and never reorders. -/
def survivorsM (loads : String → Option Json) (pf : String → Option ℚ) :
    List RawEvent → Except Unit (List (Nat → ShapedEvent))
  | [] => .ok []
  | e :: rest =>
    match shapeEventCore loads pf e with
    | .error u => .error u
    | .ok none => survivorsM loads pf rest
    | .ok (some f) =>
      match survivorsM loads pf rest with
      | .error u => .error u
      | .ok fs => .ok (f :: fs)

/-- Assign ranks n+1, n+2, ... to a list of rank-awaiting events. -/
def applyRanks (n : Nat) : List (Nat → ShapedEvent) → List ShapedEvent
  | [] => []
  | f :: fs => f (n + 1) :: applyRanks (n + 1) fs

/-- The page size, local `limit = 100` at line 49 of the source. -/
def pageLimit : Nat := 100

/-- The candidate offsets, `list(range(0, 5000, limit))` at line 50. -/
def offsets : List Nat :=
  (List.range 50).map (fun i => i * 100)

/-- fetch_batch, lines 52-67 of the source: any exception from the request
(and a null JSON body, folded into `.ok []` by the caller model) yields an
empty page; errors never propagate past this boundary. -/
def fetch_batch (upstream : Nat → Except Unit (List RawEvent)) (offset : Nat) :
    List RawEvent :=
  match upstream offset with
  | .ok l => l
  | .error _ => []

/-- The result collection of lines 70-77: `results[offset] = batch` is
executed only `if batch:` (Python truthiness = non-empty), so an errored or
empty page is absent from the dict.  `sorted(results.keys())` is the
ascending-offset order, which is the order of `offsets` itself, so the dict
is modelled as an offset-ascending association list. -/
def collectResults (fb : Nat → List RawEvent) (os : List Nat) :
    List (Nat × List RawEvent) :=
  os.filterMap (fun o =>
    let batch := fb o
    if batch.isEmpty then none else some (o, batch))

/-- The reconstruction loop of lines 80-83: extend with each present page in
ascending-offset order and break after the first page shorter than the
requested page size. -/
def reassembleGo (limit : Nat) : List (Nat × List RawEvent) → List RawEvent
  | [] => []
  | (_, batch) :: rest =>
    batch ++ (if batch.length < limit then [] else reassembleGo limit rest)

/-- The `all_events` value of get_all_finance_events: parallel fetch of
every candidate offset, then ordered reassembly. -/
def allEventsFetched (upstream : Nat → Except Unit (List RawEvent)) :
    List RawEvent :=
  reassembleGo pageLimit (collectResults (fetch_batch upstream) offsets)

/-- get_all_finance_events, lines 42-199 of the source: fetch and
reassemble, keyword-filter, format; the function-level `except Exception`
turns any raised error (notably a ValueError from `float`) into `[]`. -/
def get_all_finance_events (loads : String → Option Json)
    (pf : String → Option ℚ) (upstream : Nat → Except Unit (List RawEvent)) :
    List ShapedEvent :=
  match formatGo loads pf [] ((allEventsFetched upstream).filter isFinance) with
  | .ok l => l
  | .error _ => []

/-- The mutable module state touched by update_finance_events: the cache,
the last-update timestamp and the in-progress flag (lines 31-36). -/
structure ServerState where
  cached : List ShapedEvent
  last_update : ℚ
  is_updating : Bool

/-- update_finance_events, lines 201-222 of the source, as one atomic state
transition (the lock serialises the flag tests and writes).  The
`fetchResult` parameter is the outcome of the `get_all_finance_events()`
call: `.ok l` = it returned `l`, `.error ()` = it raised (the source's
except-branch; unreachable in practice because get_all_finance_events
catches internally, but present in the code).  The returned Bool records
whether the fetch was performed at all.  Note that when the fetch returns
an empty list, the source resets neither the flag nor anything else: the
function simply falls off the end of the `if events:` with
`is_updating` still True. -/
def update_finance_events (s : ServerState)
    (fetchResult : Except Unit (List ShapedEvent)) (now : ℚ) :
    ServerState × Bool :=
  if s.is_updating then
    (s, false)
  else
    match fetchResult with
    | .ok events =>
      if events.isEmpty then
        ({ s with is_updating := true }, true)
      else
        ({ cached := events, last_update := now, is_updating := false }, true)
    | .error _ => ({ s with is_updating := false }, true)

/-- Python list slicing `l[s:e]` for the non-negative bounds produced by
the endpoint's clamping. -/
def pySlice {α : Type} (l : List α) (s e : Int) : List α :=
  (l.drop s.toNat).take (e.toNat - s.toNat)

/-- The JSON body of the paginated endpoint. -/
structure PaginatedResponse where
  success : Bool
  data : List ShapedEvent
  count : Nat
  offset : Int
  limit : Int
  total : Nat
  has_more : Bool

/-- get_paginated_finance_markets, lines 291-314 of the source (the
initialized case, with the two query integers already parsed). -/
def get_paginated_finance_markets (cached_finance_events : List ShapedEvent)
    (offsetArg limitArg : Int) : PaginatedResponse :=
  let offset := if offsetArg < 0 then 0 else offsetArg
  let limit := if limitArg < 1 ∨ limitArg > 200 then 100 else limitArg
  let start_idx := offset
  let end_idx := offset + limit
  let paginated_events := pySlice cached_finance_events start_idx end_idx
  { success := true
    data := paginated_events
    count := paginated_events.length
    offset := offset
    limit := limit
    total := cached_finance_events.length
    has_more := decide (end_idx < (cached_finance_events.length : Int)) }

/-- A decoder instantiation that always fails; used where the decoder is
irrelevant to the input under evaluation. -/
def loadsNone : String → Option Json := fun _ => none

/-- A decoder instantiation with one known-good document; used to exercise
the valid-JSON branch of outcome-price parsing on a concrete input. -/
def toyLoads : String → Option Json := fun s =>
  if s = "[0.5]" then some (Json.arr [Json.num (1 / 2)]) else none

/-- A raw event with every field absent; used as page filler where only
page lengths matter. -/
def dummyRawEvent : RawEvent :=
  { id := none, title := none, slug := none, image := none, icon := none,
    description := none, endDate := none, category := none,
    active := none, closed := none,
    volume := .absent, volume24hr := .absent, liquidity := .absent,
    tags := [], markets := [] }

/-- A well-formed market: positive volume, so it survives shaping. -/
def financeRawMarket : RawMarket :=
  { groupItemTitle := none, image := none, icon := none,
    outcomePrices := .plist [], outcomes := none,
    closed := some false, active := some true,
    liquidity := .absent, volume := .num 2 }

/-- A well-formed finance event: a Stocks tag, positive volume and one
surviving market; it passes every pipeline stage. -/
def financeRawEvent : RawEvent :=
  { id := some "ev1", title := some "Gold above 3000", slug := some "gold-above-3000",
    image := none, icon := none, description := none, endDate := none,
    category := none, active := some true, closed := some false,
    volume := .num 5, volume24hr := .absent, liquidity := .absent,
    tags := [{ id := some "t1", label := some "Stocks", slug := some "stocks" }],
    markets := [financeRawMarket] }

/-- The shaped form the pipeline produces for financeRawEvent at rank 1. -/
def financeShapedMarket : ShapedMarket :=
  { groupItemTitle := "", image := "https://via.placeholder.com/40",
    outcomePrices := .arr [], outcomes := .arr [],
    is_live := true, closed := false, active := true,
    liquidity := 0, volume := 2 }

/-- The shaped event the pipeline produces for financeRawEvent. -/
def financeShaped : ShapedEvent :=
  { rank := 1, id := some "ev1", title := some "Gold above 3000",
    slug := some "gold-above-3000",
    link := "https://polymarket.com/event/gold-above-3000",
    image := "https://via.placeholder.com/150",
    tags := [{ id := some "t1", label := some "Stocks", slug := some "stocks" }],
    tag_labels := [some "Stocks"],
    volume := 5, volume_24hr := 0, liquidity := 0,
    description := "", end_date := none, market_count := 1,
    category := none, markets := [financeShapedMarket],
    is_live := true }

/-- A finance-tagged event whose volume field is the non-numeric string
that makes the source's `float` call raise. -/
def badRawEvent : RawEvent :=
  { id := some "ev2", title := some "Bad volume", slug := some "bad-volume",
    image := none, icon := none, description := none, endDate := none,
    category := none, active := some true, closed := some false,
    volume := .str "abc", volume24hr := .absent, liquidity := .absent,
    tags := [{ id := some "t2", label := some "Banking", slug := some "banking" }],
    markets := [] }

/-- A market whose upstream volume is the number -1: it passes the
both-zero gate without being positive. -/
def negRawMarket : RawMarket :=
  { groupItemTitle := none, image := none, icon := none,
    outcomePrices := .plist [], outcomes := none,
    closed := some false, active := some true,
    liquidity := .absent, volume := .num (-1) }

/-- A finance-tagged event with negative volume: survives the pipeline with
volume < 0 and liquidity = 0. -/
def negRawEvent : RawEvent :=
  { id := some "ev3", title := some "Negative volume", slug := some "neg-volume",
    image := none, icon := none, description := none, endDate := none,
    category := none, active := some true, closed := some false,
    volume := .num (-1), volume24hr := .absent, liquidity := .absent,
    tags := [{ id := some "t1", label := some "Stocks", slug := some "stocks" }],
    markets := [negRawMarket] }

/-- An upstream where only offset 0 answers, with one good event. -/
def upGood : Nat → Except Unit (List RawEvent) := fun o =>
  if o = 0 then .ok [financeRawEvent] else .ok []

/-- An upstream whose offset-0 page holds one good and one malformed
event. -/
def upBad : Nat → Except Unit (List RawEvent) := fun o =>
  if o = 0 then .ok [financeRawEvent, badRawEvent] else .ok []

/-- An upstream where the OFFSET-0 fetch fails and offset 100 returns one
good event. -/
def upOffset0Err : Nat → Except Unit (List RawEvent) := fun o =>
  if o = 0 then .error () else if o = 100 then .ok [financeRawEvent] else .ok []

/-- An upstream with a full page at 0, an ERRORED page at 100 and a short
page at 200. -/
def upPages : Nat → Except Unit (List RawEvent) := fun o =>
  if o = 0 then .ok (List.replicate 100 dummyRawEvent)
  else if o = 100 then .error ()
  else if o = 200 then .ok (List.replicate 40 dummyRawEvent)
  else .ok []

/-- An upstream with full pages at 0 and 100 and a short page at 200: the
spec's positive reassembly example. -/
def upPagesFull : Nat → Except Unit (List RawEvent) := fun o =>
  if o = 0 then .ok (List.replicate 100 dummyRawEvent)
  else if o = 100 then .ok (List.replicate 100 dummyRawEvent)
  else if o = 200 then .ok (List.replicate 40 dummyRawEvent)
  else .ok []

/-- An upstream whose only event has negative volume. -/
def upNeg : Nat → Except Unit (List RawEvent) := fun o =>
  if o = 0 then .ok [negRawEvent] else .ok []

/-- An idle server state holding one cached event. -/
def sIdle : ServerState :=
  { cached := [financeShaped], last_update := 10, is_updating := false }

/-- A server state with a refresh marked in flight. -/
def sBusy : ServerState :=
  { cached := [], last_update := 0, is_updating := true }

/-- The sequential walk the spec describes: visit offsets in order, append
each page, stop after the first page (errored pages included, as empty)
shorter than the page size.  Follows the spec words, for comparison with
the source's reassembly. -/
def seqWalkSpec (limit : Nat) (fb : Nat → List RawEvent) : List Nat → List RawEvent
  | [] => []
  | o :: rest =>
    fb o ++ (if (fb o).length < limit then [] else seqWalkSpec limit fb rest)

/-- The walk the source actually performs: errored/empty pages are absent
from the results dict, so they are skipped; the walk stops after the first
PRESENT page shorter than the page size. -/
def seqWalkSkip (limit : Nat) (fb : Nat → List RawEvent) : List Nat → List RawEvent
  | [] => []
  | o :: rest =>
    if (fb o).isEmpty then seqWalkSkip limit fb rest
    else fb o ++ (if (fb o).length < limit then [] else seqWalkSkip limit fb rest)

/-- The event list produced by an update outcome, for stating when a cycle
produced no usable data (an exception, like an empty return, yields no
events). -/
def resultEvents : Except Unit (List ShapedEvent) → List ShapedEvent
  | .ok l => l
  | .error _ => []

/-- A fresh server state with an empty cache. -/
def sEmpty : ServerState :=
  { cached := [], last_update := 0, is_updating := false }

/-- The cache-content invariant of published events: market_count is the
length of the (non-empty) markets list, and neither the event nor any
surviving market has volume and liquidity both zero. -/
def eventInv (e : ShapedEvent) : Prop :=
  e.market_count = e.markets.length ∧
  1 ≤ e.market_count ∧
  (e.volume ≠ 0 ∨ e.liquidity ≠ 0) ∧
  ∀ m ∈ e.markets, m.volume ≠ 0 ∨ m.liquidity ≠ 0

/-- A market whose outcomePrices is a string that toyLoads decodes. -/
def opRawMarket : RawMarket :=
  { groupItemTitle := none, image := none, icon := none,
    outcomePrices := .pstr "[0.5]", outcomes := none,
    closed := some false, active := some true,
    liquidity := .absent, volume := .num 3 }

/- ------------------------------------------------------------------ -/
/- Helper lemmas                                                      -/
/- ------------------------------------------------------------------ -/

/-- The formatting loop is the rank-free survivor scan followed by rank
assignment starting after the accumulator. -/
theorem formatGo_eq_survivors (loads : String → Option Json)
    (pf : String → Option ℚ) (evts : List RawEvent) (acc : List ShapedEvent) :
    formatGo loads pf acc evts =
      (survivorsM loads pf evts).map (fun fs => acc ++ applyRanks acc.length fs) := by
  induction evts generalizing acc with
  | nil => simp [formatGo, survivorsM, applyRanks, Except.map]
  | cons e rest ih =>
    cases hsc : shapeEventCore loads pf e with
    | error u =>
      simp only [formatGo, survivorsM, hsc]
      simp [Except.map]
    | ok o =>
      cases o with
      | none =>
        simp only [formatGo, survivorsM, hsc]
        exact ih acc
      | some f =>
        simp only [formatGo, survivorsM, hsc]
        rw [ih]
        cases hs2 : survivorsM loads pf rest with
        | error u => simp [Except.map]
        | ok fs =>
          simp [Except.map, applyRanks, List.length_append]

theorem applyRanks_getElem? (fs : List (Nat → ShapedEvent)) (n i : Nat) :
    (applyRanks n fs)[i]? = (fs[i]?).map (fun f => f (n + i + 1)) := by
  induction fs generalizing n i with
  | nil => simp [applyRanks]
  | cons f fs ih =>
    cases i with
    | zero => simp [applyRanks]
    | succ j =>
      simp only [applyRanks, List.getElem?_cons_succ]
      rw [ih]
      congr 1
      funext g
      congr 1
      omega

theorem applyRanks_length (fs : List (Nat → ShapedEvent)) (n : Nat) :
    (applyRanks n fs).length = fs.length := by
  induction fs generalizing n with
  | nil => rfl
  | cons f fs ih => simp [applyRanks, ih]

/-- The rank field of a shaped event is exactly the rank argument. -/
theorem shapeEventCore_rank (loads : String → Option Json)
    (pf : String → Option ℚ) (e : RawEvent) (f : Nat → ShapedEvent)
    (h : shapeEventCore loads pf e = .ok (some f)) (r : Nat) :
    (f r).rank = r := by
  unfold shapeEventCore at h
  split at h
  · cases h
  · split at h
    · cases h
    · split at h
      · cases h
      · split at h
        · cases h
        · split at h
          · cases h
          · split at h
            · cases h
            · cases h
              rfl

theorem survivorsM_ranks (loads : String → Option Json)
    (pf : String → Option ℚ) (evts : List RawEvent)
    (fs : List (Nat → ShapedEvent)) (h : survivorsM loads pf evts = .ok fs) :
    ∀ f ∈ fs, ∀ r, (f r).rank = r := by
  induction evts generalizing fs with
  | nil =>
    simp only [survivorsM] at h
    cases h
    intro f hf
    cases hf
  | cons e rest ih =>
    simp only [survivorsM] at h
    split at h
    · cases h
    · exact ih fs h
    · rename_i f hsc
      split at h
      · cases h
      · rename_i fs2 hs2
        cases h
        intro g hg r
        rcases List.mem_cons.mp hg with hg | hg
        · subst hg
          exact shapeEventCore_rank loads pf e g hsc r
        · exact ih fs2 hs2 g hg r

/-- A market that survives shaping has volume and liquidity not both
zero. -/
theorem shapeMarket_nonzero (loads : String → Option Json)
    (pf : String → Option ℚ) (ev : RawEvent) (m : RawMarket)
    (sm : ShapedMarket) (h : shapeMarket loads pf ev m = .ok (some sm)) :
    sm.volume ≠ 0 ∨ sm.liquidity ≠ 0 := by
  unfold shapeMarket at h
  split at h
  · cases h
  · split at h
    · cases h
    · split at h
      · cases h
      · rename_i hgate
        cases h
        exact not_and_or.mp hgate

theorem shapeMarketsList_nonzero (loads : String → Option Json)
    (pf : String → Option ℚ) (ev : RawEvent) (ms : List RawMarket)
    (l : List ShapedMarket) (h : shapeMarketsList loads pf ev ms = .ok l) :
    ∀ sm ∈ l, sm.volume ≠ 0 ∨ sm.liquidity ≠ 0 := by
  induction ms generalizing l with
  | nil =>
    simp only [shapeMarketsList] at h
    cases h
    intro sm hsm
    cases hsm
  | cons m rest ih =>
    simp only [shapeMarketsList] at h
    cases hm : shapeMarket loads pf ev m with
    | error u => rw [hm] at h; cases h
    | ok o =>
      rw [hm] at h
      cases hr : shapeMarketsList loads pf ev rest with
      | error u => rw [hr] at h; cases h
      | ok r =>
        rw [hr] at h
        cases o with
        | none =>
          cases h
          exact ih l hr
        | some sm2 =>
          cases h
          intro sm hsm
          rcases List.mem_cons.mp hsm with hsm | hsm
          · subst hsm
            exact shapeMarket_nonzero loads pf ev m sm hm
          · exact ih r hr sm hsm

/-- A surviving shaped event satisfies the cache invariant at every
rank. -/
theorem shapeEventCore_inv (loads : String → Option Json)
    (pf : String → Option ℚ) (e : RawEvent) (f : Nat → ShapedEvent)
    (h : shapeEventCore loads pf e = .ok (some f)) (r : Nat) :
    eventInv (f r) := by
  unfold shapeEventCore at h
  split at h
  · cases h
  · split at h
    · cases h
    · split at h
      · cases h
      · split at h
        · cases h
        · rename_i hgate
          split at h
          · cases h
          · rename_i fm hfm
            split at h
            · cases h
            · rename_i hlen
              cases h
              refine ⟨rfl, Nat.one_le_iff_ne_zero.mpr hlen, not_and_or.mp hgate, ?_⟩
              exact shapeMarketsList_nonzero loads pf e e.markets fm hfm

/-- The formatting loop preserves the cache invariant. -/
theorem formatGo_inv (loads : String → Option Json) (pf : String → Option ℚ)
    (evts : List RawEvent) (acc l : List ShapedEvent)
    (hacc : ∀ e ∈ acc, eventInv e) (h : formatGo loads pf acc evts = .ok l) :
    ∀ e ∈ l, eventInv e := by
  induction evts generalizing acc with
  | nil =>
    simp only [formatGo] at h
    cases h
    exact hacc
  | cons e rest ih =>
    simp only [formatGo] at h
    split at h
    · cases h
    · exact ih acc hacc h
    · rename_i f hsc
      refine ih _ ?_ h
      intro x hx
      rcases List.mem_append.mp hx with hx | hx
      · exact hacc x hx
      · rcases List.mem_singleton.mp hx with rfl
        exact shapeEventCore_inv loads pf e f hsc _

/-- The source's keyed-reassembly equals the walk that skips absent pages
and stops after the first present short page. -/
theorem reassemble_eq_skipWalk (limit : Nat) (fb : Nat → List RawEvent)
    (os : List Nat) :
    reassembleGo limit (collectResults fb os) = seqWalkSkip limit fb os := by
  induction os with
  | nil => rfl
  | cons o rest ih =>
    simp only [collectResults, List.filterMap_cons, seqWalkSkip] at ih ⊢
    by_cases hb : (fb o).isEmpty
    · simp only [hb, if_true]
      exact ih
    · simp only [hb, Bool.false_eq_true, if_false]
      simp only [reassembleGo]
      rw [ih]

/- ------------------------------------------------------------------ -/
/- Claims                                                             -/
/- ------------------------------------------------------------------ -/

/-- C1 (code-bug evidence): a refresh cycle whose fetch/transform pass
returns an empty event list leaves the prior cached snapshot and the
timestamp untouched, but does NOT clear is_updating — the state keeps
is_updating = true, so a later trigger (here one that would even succeed)
is a no-op that performs no fetch, contradicting the claim that the
coordinator returns to IDLE. -/
theorem c1_failed_cycle_leaves_flag_set :
    update_finance_events sIdle (.ok []) 20 =
      ({ cached := [financeShaped], last_update := 10, is_updating := true }, true) ∧
    update_finance_events (update_finance_events sIdle (.ok []) 20).1
        (.ok [financeShaped]) 30 =
      ((update_finance_events sIdle (.ok []) 20).1, false) :=
  ⟨rfl, rfl⟩

/-- C2 (code-bug evidence): numeric coercion of a well-formed numeric
string yields its value, but coercion of a non-numeric string raises
(is not total), and via the function-level exception handler a single
malformed volume field aborts the whole refresh: the same page without
the malformed record produces one event, with it the pass returns []. -/
theorem c2_malformed_numeric_aborts_refresh :
    pyFloat "1234.5" = some (2469 / 2) ∧
    coerceNum pyFloat (.str "abc") = .error () ∧
    (get_all_finance_events loadsNone pyFloat upBad).length = 0 ∧
    (get_all_finance_events loadsNone pyFloat upGood).length = 1 := by
  refine ⟨?_, rfl, rfl, rfl⟩
  have h : pyFloatLit "1234.5" = some ⟨false, 1234, 5, 1, 0⟩ := by decide
  have h2 : pyFloat "1234.5" = some (litVal ⟨false, 1234, 5, 1, 0⟩) := by
    rw [pyFloat, h]
    rfl
  rw [h2]
  norm_num [litVal]

/-- C3 counterexample: with the offset-0 fetch failing and offset 100
returning one good event, the refresh still produces data and publishes
it (the cache is replaced and the timestamp advances), so an offset-0
failure alone is NOT treated as a refresh failure. -/
theorem c3_counterexample_offset0_failure_still_publishes :
    upOffset0Err 0 = .error () ∧
    (get_all_finance_events loadsNone pyFloat upOffset0Err).length = 1 ∧
    ((update_finance_events sEmpty
        (.ok (get_all_finance_events loadsNone pyFloat upOffset0Err)) 99).1.cached).length = 1 ∧
    (update_finance_events sEmpty
        (.ok (get_all_finance_events loadsNone pyFloat upOffset0Err)) 99).1.last_update = 99 :=
  ⟨rfl, rfl, rfl, rfl⟩

/-- C3 amended: a failed page fetch at ANY offset, offset 0 included,
degrades to an empty page and never aborts the refresh — a cycle whose
fetch errors at offset k is indistinguishable from one whose page k is
empty; a refresh fails only when the cycle as a whole yields no
events. -/
theorem c3_amended_page_failure_degrades_to_empty
    (loads : String → Option Json) (pf : String → Option ℚ)
    (upstream : Nat → Except Unit (List RawEvent)) (k : Nat) :
    get_all_finance_events loads pf (fun o => if o = k then .error () else upstream o) =
      get_all_finance_events loads pf (fun o => if o = k then .ok [] else upstream o) := by
  have h : fetch_batch (fun o => if o = k then .error () else upstream o) =
      fetch_batch (fun o => if o = k then .ok [] else upstream o) := by
    funext o
    by_cases ho : o = k <;> simp [fetch_batch, ho]
  unfold get_all_finance_events allEventsFetched
  rw [h]

/-- C4 counterexample: with pages 0 (full), 100 (errored) and 200 (40
records), the source's reassembly SKIPS the errored page and yields 140
records, while the sequential walk the claim describes halts at the
empty page with 100 records — the two disagree. -/
theorem c4_counterexample_errored_page_skipped :
    fetch_batch upPages 100 = [] ∧
    (allEventsFetched upPages).length = 140 ∧
    (seqWalkSpec pageLimit (fetch_batch upPages) offsets).length = 100 ∧
    allEventsFetched upPages ≠ seqWalkSpec pageLimit (fetch_batch upPages) offsets := by
  refine ⟨rfl, rfl, rfl, ?_⟩
  intro h
  have hlen := congrArg List.length h
  rw [show (allEventsFetched upPages).length = 140 from rfl,
    show (seqWalkSpec pageLimit (fetch_batch upPages) offsets).length = 100 from rfl] at hlen
  exact absurd hlen (by decide)

/-- C4 amended: reassembly walks the PRESENT (non-empty) pages in
ascending offset order and stops appending after the first present page
shorter than the page size; errored or empty pages are skipped, not
halt signals.  The spec's positive example still holds: pages of sizes
100, 100, 40 at offsets 0, 100, 200 reassemble to 240 records. -/
theorem c4_amended_reassembly_skips_absent_pages :
    (∀ (limit : Nat) (fb : Nat → List RawEvent) (os : List Nat),
      reassembleGo limit (collectResults fb os) = seqWalkSkip limit fb os) ∧
    (allEventsFetched upPagesFull).length = 240 :=
  ⟨reassemble_eq_skipWalk, rfl⟩

/-- C6: a trigger arriving while the in-progress flag is set is a no-op:
no upstream fetch is performed and cache, timestamp and flag are all
returned unchanged. -/
theorem c6_concurrent_trigger_noop (s : ServerState)
    (fetchResult : Except Unit (List ShapedEvent)) (now : ℚ)
    (h : s.is_updating = true) :
    update_finance_events s fetchResult now = (s, false) := by
  simp [update_finance_events, h]

/-- Witness for c6_concurrent_trigger_noop at a concrete busy state. -/
theorem c6_concurrent_trigger_noop_witness :
    update_finance_events sBusy (.ok [financeShaped]) 5 = (sBusy, false) :=
  c6_concurrent_trigger_noop sBusy (.ok [financeShaped]) 5 rfl

/-- C10: a cycle that produces no events (empty list or exception) leaves
cache and timestamp unchanged, and a non-empty cache never becomes empty
under any update outcome. -/
theorem c10_cache_never_emptied (s : ServerState)
    (f : Except Unit (List ShapedEvent)) (now : ℚ) :
    (resultEvents f = [] →
      (update_finance_events s f now).1.cached = s.cached ∧
      (update_finance_events s f now).1.last_update = s.last_update) ∧
    (s.cached ≠ [] → (update_finance_events s f now).1.cached ≠ []) := by
  unfold update_finance_events resultEvents
  cases hb : s.is_updating with
  | true => simp
  | false =>
    cases f with
    | error u => simp
    | ok events =>
      cases events with
      | nil => simp
      | cons e rest =>
        simp

/-- Witness for c10_cache_never_emptied: an empty cycle against a
non-empty cache changes nothing and the cache stays non-empty. -/
theorem c10_cache_never_emptied_witness :
    ((update_finance_events sIdle (.ok []) 77).1.cached = sIdle.cached ∧
      (update_finance_events sIdle (.ok []) 77).1.last_update = sIdle.last_update) ∧
    (update_finance_events sIdle (.ok []) 77).1.cached ≠ [] :=
  ⟨(c10_cache_never_emptied sIdle (.ok []) 77).1 rfl,
   (c10_cache_never_emptied sIdle (.ok []) 77).2 (by simp [sIdle])⟩

/-- C5 counterexample: an upstream event whose volume is the number -1
(and liquidity absent) survives the whole pipeline, so the published
snapshot contains an event with volume < 0 and liquidity = 0 — the
claimed strict invariant volume > 0 OR liquidity > 0 fails (the gate in
the source only excludes BOTH EQUAL ZERO). -/
theorem c5_counterexample_negative_volume :
    (get_all_finance_events loadsNone pyFloat upNeg).length = 1 ∧
    ¬ (∀ e ∈ get_all_finance_events loadsNone pyFloat upNeg,
        0 < e.volume ∨ 0 < e.liquidity) := by
  refine ⟨rfl, ?_⟩
  intro h
  cases hl : get_all_finance_events loadsNone pyFloat upNeg with
  | nil =>
    have h1 : (get_all_finance_events loadsNone pyFloat upNeg).length = 1 := rfl
    rw [hl] at h1
    exact absurd h1 (by decide)
  | cons e0 rest =>
    have hmem : e0 ∈ get_all_finance_events loadsNone pyFloat upNeg := by
      rw [hl]
      exact List.mem_cons_self _ _
    have h2 : (get_all_finance_events loadsNone pyFloat upNeg).head?.map
        (fun e => (e.volume, e.liquidity)) = some (-1, 0) := by decide
    rw [hl] at h2
    simp only [List.head?_cons, Option.map_some'] at h2
    have h4 := Option.some.inj h2
    have hv : e0.volume = -1 := congrArg Prod.fst h4
    have hq : e0.liquidity = 0 := congrArg Prod.snd h4
    rcases h e0 hmem with h5 | h5
    · rw [hv] at h5
      exact absurd h5 (by decide)
    · rw [hq] at h5
      exact absurd h5 (by decide)

/-- C5 amended: every event of a published snapshot has market_count equal
to the length of its non-empty markets list, and volume and liquidity NOT
BOTH ZERO (rather than one strictly positive); every surviving market
likewise has volume and liquidity not both zero. -/
theorem c5_amended_snapshot_invariants (loads : String → Option Json)
    (pf : String → Option ℚ) (upstream : Nat → Except Unit (List RawEvent))
    (e : ShapedEvent) (he : e ∈ get_all_finance_events loads pf upstream) :
    eventInv e := by
  unfold get_all_finance_events at he
  cases hf : formatGo loads pf [] ((allEventsFetched upstream).filter isFinance) with
  | error u =>
    rw [hf] at he
    cases he
  | ok l =>
    rw [hf] at he
    exact formatGo_inv loads pf _ [] l (fun x hx => absurd hx (List.not_mem_nil x)) hf e he

/-- Witness for c5_amended_snapshot_invariants on a concrete published
event. -/
theorem c5_amended_snapshot_invariants_witness : eventInv financeShaped :=
  c5_amended_snapshot_invariants loadsNone pyFloat upGood financeShaped
    (by rw [show get_all_finance_events loadsNone pyFloat upGood = [financeShaped] from rfl]
        exact List.mem_cons_self _ _)

/-- C7: for any cache and parsed query integers, the paginated endpoint
reports the full length as total, count equal to the returned slice
length, data equal to the [offset, offset+limit) slice of the cache
after clamping (offset < 0 becomes 0; limit outside [1, 200] becomes
100), and has_more exactly when offset + limit < total. -/
theorem c7_pagination_slice_correct (cache : List ShapedEvent)
    (offsetArg limitArg : Int) :
    (get_paginated_finance_markets cache offsetArg limitArg).total = cache.length ∧
    (get_paginated_finance_markets cache offsetArg limitArg).count =
      (get_paginated_finance_markets cache offsetArg limitArg).data.length ∧
    (∀ i : Nat,
      ((get_paginated_finance_markets cache offsetArg limitArg).data)[i]? =
        if i < (if limitArg < 1 ∨ limitArg > 200 then (100 : Int) else limitArg).toNat
        then cache[(if offsetArg < 0 then (0 : Int) else offsetArg).toNat + i]?
        else none) ∧
    ((get_paginated_finance_markets cache offsetArg limitArg).has_more = true ↔
      (if offsetArg < 0 then (0 : Int) else offsetArg).toNat +
        (if limitArg < 1 ∨ limitArg > 200 then (100 : Int) else limitArg).toNat <
        cache.length) := by
  have hoff : (0 : Int) ≤ if offsetArg < 0 then 0 else offsetArg := by
    split <;> omega
  have hlim : (1 : Int) ≤ if limitArg < 1 ∨ limitArg > 200 then 100 else limitArg := by
    split
    · omega
    · rename_i hc
      omega
  refine ⟨rfl, rfl, ?_, ?_⟩
  · intro i
    simp only [get_paginated_finance_markets, pySlice]
    have hsub : ((if offsetArg < 0 then 0 else offsetArg) +
        (if limitArg < 1 ∨ limitArg > 200 then 100 else limitArg)).toNat -
        (if offsetArg < 0 then 0 else offsetArg).toNat =
        (if limitArg < 1 ∨ limitArg > 200 then (100 : Int) else limitArg).toNat := by
      omega
    rw [hsub, List.getElem?_take]
    by_cases hi : i < (if limitArg < 1 ∨ limitArg > 200 then (100 : Int) else limitArg).toNat
    · rw [if_pos hi, if_pos hi, List.getElem?_drop]
    · rw [if_neg hi, if_neg hi]
  · simp only [get_paginated_finance_markets, decide_eq_true_eq]
    omega

/-- C8: when the formatting loop completes (no coercion raised), the i-th
surviving event carries rank i+1, and the output is exactly the
order-preserving survivor scan of the input with ranks 1..N assigned in
place — re-ranking renumbers and never reorders. -/
theorem c8_rank_enumeration (loads : String → Option Json)
    (pf : String → Option ℚ) (evts : List RawEvent) (l : List ShapedEvent)
    (h : formatGo loads pf [] evts = .ok l) :
    (∀ i (hi : i < l.length), (l.get ⟨i, hi⟩).rank = i + 1) ∧
    ∃ fs, survivorsM loads pf evts = .ok fs ∧ l = applyRanks 0 fs := by
  rw [formatGo_eq_survivors] at h
  cases hs : survivorsM loads pf evts with
  | error u =>
    rw [hs] at h
    simp only [Except.map] at h
    exact Except.noConfusion h
  | ok fs =>
    rw [hs] at h
    simp only [Except.map, List.nil_append, List.length_nil] at h
    cases h
    refine ⟨?_, fs, rfl, rfl⟩
    intro i hi
    have hlen : i < fs.length := by
      have := applyRanks_length fs 0
      omega
    have hq := applyRanks_getElem? fs 0 i
    rw [List.getElem?_eq_getElem hi, List.getElem?_eq_getElem hlen,
      Option.map_some'] at hq
    have h6 := Option.some.inj hq
    rw [List.get_eq_getElem, h6]
    have hmem : fs[i] ∈ fs := List.getElem_mem hlen
    have hrk := survivorsM_ranks loads pf evts fs hs (fs[i]) hmem (0 + i + 1)
    rw [hrk]
    omega

/-- Witness for c8_rank_enumeration on a one-event input. -/
theorem c8_rank_enumeration_witness :
    (∀ i (hi : i < ([financeShaped] : List ShapedEvent).length),
      (([financeShaped] : List ShapedEvent).get ⟨i, hi⟩).rank = i + 1) ∧
    ∃ fs, survivorsM loadsNone pyFloat [financeRawEvent] = .ok fs ∧
      ([financeShaped] : List ShapedEvent) = applyRanks 0 fs :=
  c8_rank_enumeration loadsNone pyFloat [financeRawEvent] [financeShaped] rfl

/-- C9: outcome-price parsing returns the decoded document when the field
is a string the decoder accepts, the empty list when the decoder rejects
it, and the list itself when the field is already a list; and a market
that passes the zero-activity gate is retained whatever its
outcome-price field parsed to. -/
theorem c9_outcome_price_parsing (loads : String → Option Json)
    (pf : String → Option ℚ) (event : RawEvent) (market : RawMarket)
    (v lq : ℚ) (hl : coerceNum pf market.liquidity = .ok lq)
    (hv : coerceNum pf market.volume = .ok v)
    (hgate : ¬(v = 0 ∧ lq = 0)) :
    (∀ s j, loads s = some j → parseOutcomePrices loads (.pstr s) = j) ∧
    (∀ s, loads s = none → parseOutcomePrices loads (.pstr s) = .arr []) ∧
    (∀ xs, parseOutcomePrices loads (.plist xs) = .arr xs) ∧
    ∃ sm, shapeMarket loads pf event market = .ok (some sm) ∧
      sm.outcomePrices = parseOutcomePrices loads market.outcomePrices := by
  refine ⟨?_, ?_, ?_, ?_⟩
  · intro s j hj
    simp [parseOutcomePrices, hj]
  · intro s hj
    simp [parseOutcomePrices, hj]
  · intro xs
    simp [parseOutcomePrices]
  · unfold shapeMarket
    simp only [hl, hv]
    rw [if_neg hgate]
    exact ⟨_, rfl, rfl⟩

/-- Witness for c9_outcome_price_parsing on a concrete market whose
outcomePrices string decodes. -/
theorem c9_outcome_price_parsing_witness :
    (∀ s j, toyLoads s = some j → parseOutcomePrices toyLoads (.pstr s) = j) ∧
    (∀ s, toyLoads s = none → parseOutcomePrices toyLoads (.pstr s) = .arr []) ∧
    (∀ xs, parseOutcomePrices toyLoads (.plist xs) = .arr xs) ∧
    ∃ sm, shapeMarket toyLoads pyFloat financeRawEvent opRawMarket = .ok (some sm) ∧
      sm.outcomePrices = parseOutcomePrices toyLoads opRawMarket.outcomePrices :=
  c9_outcome_price_parsing toyLoads pyFloat financeRawEvent opRawMarket 3 0 rfl rfl
    (by decide)
